import Mathlib

/-!
# Formal model of the obsidian-safe-mcp-server sandbox core

A shallow embedding of the path-validation, symlink-guard, write and read
logic of the repository (src/utils.ts, src/write.ts, src/read.ts), over an
explicit filesystem model.  Paths at the filesystem level are lists of
segments (POSIX, separator "/"); caller-supplied paths are raw strings,
validated by the same string checks the source performs.  JS string
primitives (startsWith, includes, split, toLowerCase, trim) are modelled by
structural Lean functions over `String.data` so that every definition is
executable by the kernel.
-/

/-- POSIX path separator (`path.sep`); the server targets POSIX paths. -/
def pathSep : String := "/"

/-- Models JS `String.prototype.startsWith`. -/
def strStartsWith (s pre : String) : Bool := pre.data.isPrefixOf s.data

/-- Infix search on char lists (helper for JS `String.prototype.includes`). -/
def infixAux (pat : List Char) : List Char → Bool
  | [] => pat.isEmpty
  | c :: rest => pat.isPrefixOf (c :: rest) || infixAux pat rest

/-- Models JS `String.prototype.includes` (substring containment). -/
def strIncludes (s sub : String) : Bool := infixAux sub.data s.data

/-- Models JS `String.prototype.split` with a single-character separator
(the source always splits on `path.sep` or `"\n"`). -/
def splitCharsOn (sep : Char) : List Char → List String
  | [] => [""]
  | c :: rest =>
    match splitCharsOn sep rest with
    | [] => [String.mk [c]]
    | h :: t =>
      if c == sep then "" :: h :: t
      else String.mk (c :: h.data) :: t

/-- `filePath.split(sep)` for a one-character separator. -/
def splitChars (sep : Char) (s : String) : List String := splitCharsOn sep s.data

/-- Models JS `String.prototype.toLowerCase` (ASCII). -/
def strToLower (s : String) : String := String.mk (s.data.map Char.toLower)

/-- JS whitespace recognised by `String.prototype.trim` (ASCII subset). -/
def isJsWs (c : Char) : Bool := c == ' ' || c == '\t' || c == '\n' || c == '\r'

/-- Models JS `String.prototype.trim`. -/
def strTrim (s : String) : String :=
  String.mk (((s.data.dropWhile isJsWs).reverse.dropWhile isJsWs).reverse)

/-- `Array.prototype.join(sep)` / `String.intercalate`. -/
def joinSep (sep : String) : List String → String
  | [] => ""
  | [s] => s
  | s :: rest => s ++ sep ++ joinSep sep rest

/-- Models JS `String.prototype.endsWith`. -/
def strEndsWith (s suf : String) : Bool := suf.data.reverse.isPrefixOf s.data.reverse

/-! ## Path Validator (src/utils.ts)

Each `assert*` function from src/utils.ts throws an `Error(msg)` on a bad
path; we model it as returning `some msg` (the thrown message) or `none`
(the check passes). -/

/-- `MAX_READ_SIZE` from src/utils.ts (10 MiB). -/
def MAX_READ_SIZE : Nat := 10 * 1024 * 1024

/-- `MAX_PATH_LENGTH` from src/utils.ts. -/
def MAX_PATH_LENGTH : Nat := 512

/-- `MAX_PATH_DEPTH` from src/utils.ts. -/
def MAX_PATH_DEPTH : Nat := 10

/-- `getMaxReadSize` from src/utils.ts. -/
def getMaxReadSize : Nat := MAX_READ_SIZE

/-- `ALLOWED_WRITE_EXTENSIONS` from src/utils.ts. -/
def ALLOWED_WRITE_EXTENSIONS : List String :=
  [".md", ".txt", ".csv", ".json", ".yaml", ".yml", ".canvas"]

/-- `assertNoNullBytes` from src/utils.ts: reject paths containing NUL. -/
def assertNoNullBytes (filePath : String) : Option String :=
  if strIncludes filePath (String.mk ['\x00']) then
    some "File path contains null bytes."
  else none

/-- `assertInsideVault` from src/utils.ts: a resolved absolute path must
start with the resolved vault root followed by the path separator. -/
def assertInsideVault (fullPath resolvedVault : String) : Option String :=
  if strStartsWith fullPath (resolvedVault ++ pathSep) then none
  else some "File path escapes the vault directory."

/-- `assertNoDotPaths` from src/utils.ts: no `/`-separated segment of the
caller path may start with a dot. -/
def assertNoDotPaths (filePath : String) : Option String :=
  if (splitChars '/' filePath).any (fun seg => strStartsWith seg ".") then
    some "Cannot write to dot-prefixed files or directories."
  else none

/-- Models Node `path.extname`: the suffix of the basename from its last
dot, empty when there is no dot or the only dot is the leading one
(`.md` has no extension).  Exotic inputs such as `..` are irrelevant here:
they are rejected by `assertNoDotPaths` before `extname` is consulted. -/
def extname (filePath : String) : String :=
  let base := (splitChars '/' filePath).getLastD ""
  let rev := base.data.reverse
  let pre := rev.takeWhile (fun c => c != '.')
  if pre.length + 1 < base.data.length then String.mk ('.' :: pre.reverse)
  else ""

/-- The message `assertAllowedExtension` throws for a given path. -/
def extErrText (filePath : String) : String :=
  let ext := strToLower (extname filePath)
  "File extension \"" ++ (if ext == "" then "(none)" else ext) ++
    "\" is not allowed. Allowed: " ++ joinSep ", " ALLOWED_WRITE_EXTENSIONS

/-- `assertAllowedExtension` from src/utils.ts. -/
def assertAllowedExtension (filePath : String) : Option String :=
  let ext := strToLower (extname filePath)
  if ext == "" || !(ALLOWED_WRITE_EXTENSIONS.contains ext) then
    some (extErrText filePath)
  else none

/-- `assertPathLimits` from src/utils.ts.  JS `.length` counts UTF-16
units; our inputs are ASCII, where it agrees with `String.length`. -/
def assertPathLimits (filePath : String) : Option String :=
  if filePath.length > MAX_PATH_LENGTH then
    some "File path exceeds the maximum length of 512 characters."
  else if (splitChars '/' filePath).length > MAX_PATH_DEPTH then
    some "File path exceeds the maximum depth of 10 levels."
  else none

/-! ## Filesystem model

The filesystem is an association list from absolute physical paths
(segment lists, relative to the filesystem root `/`) to entries.  A
symbolic link stores its (absolute) target path. -/

/-- A filesystem entry: regular file (content and mtime), directory, or
symbolic link with an absolute target. -/
inductive Entry
  | file (content : String) (mtime : Nat)
  | dir
  | symlink (target : List String)
deriving DecidableEq

/-- Absolute path, as a list of segments below the filesystem root. -/
abbrev AbsPath := List String

/-- The filesystem: association list keyed by physical absolute path. -/
abbrev FS := List (AbsPath × Entry)

/-- Look up the entry stored at a physical path. -/
def FS.lookup (fs : FS) (p : AbsPath) : Option Entry :=
  (fs.find? (fun pe => pe.1 == p)).map (fun pe => pe.2)

/-- Store an entry at a physical path (newest binding shadows older ones). -/
def FS.insert (fs : FS) (p : AbsPath) (e : Entry) : FS := (p, e) :: fs

/-- Component-by-component path resolution, following symbolic links, with
a fuel bound standing for the kernel's symlink-hop limit.  `none` means the
hop bound was exhausted (the OS would report `ELOOP`). -/
def resolvePath (fs : FS) : Nat → AbsPath → List String → Option AbsPath
  | _, acc, [] => some acc
  | 0, _, _ :: _ => none
  | Nat.succ fuel, acc, seg :: rest =>
    match fs.lookup (acc ++ [seg]) with
    | some (Entry.symlink t) => resolvePath fs fuel [] (t ++ rest)
    | _ => resolvePath fs fuel (acc ++ [seg]) rest

/-- Resolve a full path from the filesystem root with a generous fuel. -/
def resolveD (fs : FS) (p : AbsPath) : Option AbsPath :=
  resolvePath fs (40 * (fs.length + 1) + p.length) [] p

/-- Models Node `fs.existsSync` (follows symlinks, including the final
component). -/
def existsSync (fs : FS) (p : AbsPath) : Bool :=
  match resolveD fs p with
  | some phys => (fs.lookup phys).isSome
  | none => false

/-- Models `fs.lstatSync(p).isSymbolicLink()` on a path whose ancestors
are consulted lexically (the guard below only relies on it on symlink-free
parent chains, where this agrees with the OS call). -/
def lstatIsSymlink (fs : FS) (p : AbsPath) : Bool :=
  match fs.lookup p with
  | some (Entry.symlink _) => true
  | _ => false

/-- Error codes of the modelled filesystem syscalls. -/
inductive IOErr
  | eloop
  | eisdir
  | enoent
  | enotdir
  | fault (msg : String)
deriving DecidableEq

/-- The native message (`error.message`) carried by a modelled OS error. -/
def IOErr.message : IOErr → String
  | .eloop => "ELOOP: too many symbolic links encountered"
  | .eisdir => "EISDIR: illegal operation on a directory"
  | .enoent => "ENOENT: no such file or directory"
  | .enotdir => "ENOTDIR: not a directory"
  | .fault m => m

/-- Models `fs.mkdirSync(dir, { recursive: true })`: walks the segments,
reusing existing directories, following an existing symlinked directory to
its target, creating missing directories, and failing on a file in the
chain or a dangling symlink.  On failure the directories already created
persist. -/
def mkdirRec (fs : FS) (acc : AbsPath) : List String → FS × Option IOErr
  | [] => (fs, none)
  | seg :: rest =>
    let p := acc ++ [seg]
    match fs.lookup p with
    | some Entry.dir => mkdirRec fs p rest
    | some (Entry.file _ _) => (fs, some IOErr.enotdir)
    | some (Entry.symlink t) =>
      match fs.lookup t with
      | some Entry.dir => mkdirRec fs t rest
      | _ => (fs, some IOErr.enoent)
    | none => mkdirRec (FS.insert fs p Entry.dir) p rest

/-! ## Symlink Guard (src/utils.ts `assertNoSymlinkedParents`)

The source walks `current = dirname(fullPath)` upwards while
`current !== resolvedVault && current.startsWith(resolvedVault)`, failing
if an existing ancestor is a symlink.  On segment lists the loop condition
is "`current` is a proper extension of the vault root"; the fuel is bounded
by the number of segments. -/

/-- One step of the ancestor walk; `true` means a currently existing
symlinked directory was found in the chain. -/
def walkGo (fs : FS) (root : AbsPath) : Nat → AbsPath → Bool
  | 0, _ => false
  | Nat.succ fuel, current =>
    if !(current == root) && root.isPrefixOf current then
      if existsSync fs current && lstatIsSymlink fs current then true
      else walkGo fs root fuel current.dropLast
    else false

/-- The full ancestor walk from `current` towards the vault root. -/
def walkHitsSymlink (fs : FS) (root current : AbsPath) : Bool :=
  walkGo fs root (current.length + 1) current

/-- `assertNoSymlinkedParents` from src/utils.ts, on the filesystem model. -/
def assertNoSymlinkedParents (fs : FS) (fullPath resolvedVault : AbsPath) : Option String :=
  if walkHitsSymlink fs resolvedVault fullPath.dropLast then
    some "Cannot write through a symlinked directory."
  else none

/-! ## Lexical path resolution (Node `path.resolve`) -/

/-- One normalization step of `path.resolve`: drop empty and `.` segments,
let `..` pop the last segment (a no-op at the root). -/
def normStep (acc : List String) (seg : String) : List String :=
  if seg == "" || seg == "." then acc
  else if seg == ".." then acc.dropLast
  else acc ++ [seg]

/-- Models Node `path.resolve(resolvedVault, filePath)` on POSIX: an
absolute `filePath` replaces the base, otherwise it is joined below the
(already normalized) vault root, and the result is normalized. -/
def pathResolve (rootSegs : AbsPath) (filePath : String) : AbsPath :=
  let parts := splitChars '/' filePath
  if strStartsWith filePath pathSep then parts.foldl normStep []
  else (rootSegs ++ parts).foldl normStep []

/-- Render a segment list as the absolute path string Node would print
(`/a/b/c`). -/
def renderData : AbsPath → List Char
  | [] => []
  | s :: rest => '/' :: s.data ++ renderData rest

/-- The absolute path string of a segment list. -/
def renderPath (p : AbsPath) : String := String.mk (renderData p)

/-! ## Write-side vault enumeration (src/read.ts `getAllFilenames`, as
called by the write handler on the real filesystem)

glob with `dot: false`, `nodir: true`, `follow: false` enumerates the
regular files below the root whose relative path has no dot-prefixed
segment; the source then filters out symlinks with `lstatSync` and sorts
by modification time, most recent first (JS `Array.prototype.sort` is
stable). -/

/-- Stable descending-by-mtime insertion. -/
def insertDescByMtime (x : String × Nat) : List (String × Nat) → List (String × Nat)
  | [] => [x]
  | y :: ys => if x.2 ≥ y.2 then x :: y :: ys else y :: insertDescByMtime x ys

/-- Stable sort, most recent mtime first. -/
def sortDescByMtime : List (String × Nat) → List (String × Nat)
  | [] => []
  | x :: xs => insertDescByMtime x (sortDescByMtime xs)

/-- No segment of a relative path starts with a dot. -/
def segsNoDot (rel : List String) : Bool := rel.all (fun s => !(strStartsWith s "."))

/-- The glob enumeration of regular files strictly below `root`, with
mtimes, excluding dot paths. -/
def globVaultFiles (fs : FS) (root : AbsPath) : List (String × Nat) :=
  fs.filterMap (fun pe =>
    match pe.2 with
    | Entry.file _ m =>
      if root.isPrefixOf pe.1 && !(pe.1 == root) && segsNoDot (pe.1.drop root.length) then
        some (joinSep "/" (pe.1.drop root.length), m)
      else none
    | _ => none)

/-- `getAllFilenames` of src/read.ts applied to the modelled filesystem
(this is what the write handler consults). -/
def FS.getAllFilenames (fs : FS) (root : AbsPath) : List String :=
  (sortDescByMtime (globVaultFiles fs root)).map (fun x => x.1)

/-! ## The terminal write (src/write.ts)

`fs.openSync(fullPath, O_WRONLY | O_CREAT | O_TRUNC | O_NOFOLLOW, 0o644)`
followed by `writeFileSync(fd, content)`: the kernel resolves the parent
directory through symlinks, but refuses atomically (`ELOOP`) to open a
final component that is a symbolic link.  `fault` injects an unexpected
OS failure (permission denied, disk full, ...) at the open. -/

/-- The atomic `O_NOFOLLOW` open-and-write. -/
def openWriteNoFollow (fs : FS) (full : AbsPath) (content : String)
    (fault : Option IOErr) : FS × Option IOErr :=
  match fault with
  | some e => (fs, some e)
  | none =>
    match resolveD fs full.dropLast with
    | none => (fs, some IOErr.eloop)
    | some dirPhys =>
      let target := dirPhys ++ [full.getLastD ""]
      match fs.lookup target with
      | some (Entry.symlink _) => (fs, some IOErr.eloop)
      | some Entry.dir => (fs, some IOErr.eisdir)
      | some (Entry.file _ _) => (FS.insert fs target (Entry.file content 0), none)
      | none =>
        match fs.lookup dirPhys with
        | some Entry.dir => (FS.insert fs target (Entry.file content 0), none)
        | _ => (fs, some IOErr.enoent)

/-- The write handler's list of its own validation messages (the catch
block surfaces exactly these verbatim). -/
def knownWriteErrorMessage (m : String) : Bool :=
  m == "File path contains null bytes." ||
  m == "File path escapes the vault directory." ||
  m == "Cannot write to dot-prefixed files or directories." ||
  m == "Cannot write through a symlinked directory." ||
  strStartsWith m "File extension" ||
  strStartsWith m "File path exceeds"

/-- The catch block of `updateFileContent`: `ELOOP` becomes the
symlink-specific message, known validation messages are surfaced verbatim,
everything else becomes the generic failure string. -/
def catchToText (e : IOErr) : String :=
  match e with
  | IOErr.eloop => "Error: Cannot write to a symbolic link."
  | _ =>
    if knownWriteErrorMessage e.message then "Error: " ++ e.message
    else "Error: Failed to write file."

/-- The structured result of the write handler. -/
structure WriteResult where
  text : String
  fs : FS
deriving DecidableEq

/-- `updateFileContent` from src/write.ts: the full validation chain, the
create-vs-update lookup, recursive directory creation, the post-mkdir
symlinked-parent walk, and the atomic `O_NOFOLLOW` write, with the
handler's catch block flattening unexpected errors. -/
def updateFileContent (fs : FS) (rootSegs : AbsPath) (filePath content : String)
    (fault : Option IOErr) : WriteResult :=
  match assertNoNullBytes filePath with
  | some m => ⟨"Error: " ++ m, fs⟩
  | none =>
  match assertNoDotPaths filePath with
  | some m => ⟨"Error: " ++ m, fs⟩
  | none =>
  match assertAllowedExtension filePath with
  | some m => ⟨"Error: " ++ m, fs⟩
  | none =>
  match assertPathLimits filePath with
  | some m => ⟨"Error: " ++ m, fs⟩
  | none =>
  let fullPath := pathResolve rootSegs filePath
  match assertInsideVault (renderPath fullPath) (renderPath rootSegs) with
  | some m => ⟨"Error: " ++ m, fs⟩
  | none =>
  let fileExists := (FS.getAllFilenames fs rootSegs).contains filePath
  let dirPath := fullPath.dropLast
  match (if existsSync fs dirPath then (fs, none) else mkdirRec fs [] dirPath) with
  | (fs₁, some e) => ⟨catchToText e, fs₁⟩
  | (fs₁, none) =>
    match assertNoSymlinkedParents fs₁ fullPath rootSegs with
    | some m => ⟨"Error: " ++ m, fs₁⟩
    | none =>
      match openWriteNoFollow fs₁ fullPath content fault with
      | (fs₂, some e) => ⟨catchToText e, fs₂⟩
      | (fs₂, none) =>
        ⟨(if fileExists then "Successfully updated existing file: "
          else "Successfully created new file: ") ++ filePath, fs₂⟩

/-! ## Read side (src/read.ts, as shipped)

Read operations never mutate the filesystem; we model the vault as the
list of entries the glob call enumerates (glob itself excludes dot entries
and does not follow symlinked directories; `link` records what
`lstatSync(...).isSymbolicLink()` returns for the entry, and `readResult`
what `fs.readFileSync` would produce — `Except.error` carries the native
message of a read failure such as a permission denial). -/

/-- One enumerated vault entry, in glob traversal order. -/
structure VFile where
  rel : String
  mtime : Nat
  link : Bool
  readResult : Except String String

namespace ReadTs

/-- Stable descending-by-mtime insertion of an enumerated file. -/
def insertDesc (x : VFile) : List VFile → List VFile
  | [] => [x]
  | y :: ys => if x.mtime ≥ y.mtime then x :: y :: ys else y :: insertDesc x ys

/-- Stable sort of enumerated files, most recent mtime first (models the
stable JS `Array.prototype.sort` with comparator `b.mtime - a.mtime`). -/
def sortDesc : List VFile → List VFile
  | [] => []
  | x :: xs => insertDesc x (sortDesc xs)

/-- `getAllFilenames` from src/read.ts: glob, filter out symlinks, sort by
mtime descending, return relative paths. -/
def getAllFilenames (files : List VFile) : List String :=
  (sortDesc (files.filter (fun f => !f.link))).map (fun f => f.rel)

/-- Models Node `path.basename` on the enumerated relative paths. -/
def basename (p : String) : String := (splitChars '/' p).getLastD p

/-- `fs.readFileSync(path.join(rootPath, rel))` against the enumeration. -/
def readFileSyncAt (files : List VFile) (rel : String) : Except String String :=
  match files.find? (fun f => f.rel == rel) with
  | some f => f.readResult
  | none => Except.error ("ENOENT: no such file or directory, open " ++ rel)

/-- `readAndFormatFile` from src/read.ts — note there is no size check:
the content is read unconditionally and returned in full. -/
def readAndFormatFile (files : List VFile) (rel : String) : Except String String :=
  match readFileSyncAt files rel with
  | Except.ok c => Except.ok ("# File: " ++ rel ++ "\n\n" ++ c)
  | Except.error e => Except.error e

/-- The lowercase file map of `readFilesByName` (`Map.set` in enumeration
order, so the last file with a given lowercase key wins). -/
def fileMapGet (allFiles : List String) (lower : String) : Option String :=
  allFiles.reverse.find? (fun f => strToLower f == lower)

/-- The per-name resolution of `readFilesByName`: exact match, then
case-insensitive match, then partial basename match (uncapped in this
version of the source), then a not-found marker. -/
def perName (files : List VFile) (allFiles : List String) (targetName : String) :
    Except String (List String) :=
  if allFiles.contains targetName then
    (readAndFormatFile files targetName).map (fun s => [s])
  else
    let lowerTargetName := strToLower targetName
    match fileMapGet allFiles lowerTargetName with
    | some f => (readAndFormatFile files f).map (fun s => [s])
    | none =>
      let matchingFiles := allFiles.filter
        (fun f => strIncludes (strToLower (basename f)) lowerTargetName)
      if !matchingFiles.isEmpty then
        matchingFiles.mapM (readAndFormatFile files)
      else
        Except.ok ["# File: " ++ targetName ++ "\n\nFile not found in vault."]

/-- `readFilesByName` from src/read.ts.  A thrown read error propagates
out of the `flatMap` (modelled by the `Except` monad). -/
def readFilesByName (files : List VFile) (targets : List String) :
    Except String (List String) :=
  (targets.mapM (perName files (getAllFilenames files))).map List.flatten

/-- The `readMultipleFiles` handler body from src/read.ts: it calls
`readFilesByName` with no try/catch, so a read exception escapes the
handler (the `Except.error` case). -/
def readFiles (files : List VFile) (filenames : List String) : Except String String :=
  match readFilesByName files filenames with
  | Except.error e => Except.error e
  | Except.ok fileContents =>
    if fileContents.isEmpty then Except.ok "No matching files found in the vault."
    else Except.ok (joinSep "\n\n" fileContents)

/-- The literal test of the todo regex (dash, space, bracketed space,
space, then one or more characters): some position of the line carries
`"- [ ] "` followed by at least one character. -/
def regexTodoTest : List Char → Bool
  | [] => false
  | c :: t =>
    ("- [ ] ".data.isPrefixOf (c :: t) && decide (6 < (c :: t).length)) || regexTodoTest t

/-- Whether a line matches the open-todo regex. -/
def lineHasOpenTodo (line : String) : Bool := regexTodoTest line.data

/-- The records pushed for one file by `findOpenTodos`: line order is the
order of `content.split("\n")`. -/
def todoRecords (rel content : String) : List String :=
  (splitChars '\n' content).foldl (fun acc line =>
    if strIncludes line "- [ ]" then
      (if lineHasOpenTodo line then acc ++ ["- **" ++ rel ++ "**: " ++ strTrim line] else acc)
    else acc) []

/-- The `forEach` accumulation of `findOpenTodos` over the globbed
markdown files (a read failure throws out of the loop). -/
def findOpenTodosGo : List VFile → List String → Except String (List String)
  | [], acc => Except.ok acc
  | f :: rest, acc =>
    match f.readResult with
    | Except.error e => Except.error e
    | Except.ok content => findOpenTodosGo rest (acc ++ todoRecords f.rel content)

/-- `findOpenTodos` from src/read.ts: glob `**/*.md` (enumeration order,
no mtime sort), filter out symlinks, scan each file line by line. -/
def findOpenTodos (files : List VFile) : Except String (List String) :=
  let mdFiles := (files.filter (fun f => strEndsWith f.rel ".md")).filter (fun f => !f.link)
  findOpenTodosGo mdFiles []

/-- The todo records a single enumerated file contributes (empty when the
read fails; used only to state order theorems). -/
def todoRecordsOfFile (f : VFile) : List String :=
  match f.readResult with
  | Except.ok c => todoRecords f.rel c
  | Except.error _ => []

/-- Whether the modelled read of a file succeeds. -/
def readOk (f : VFile) : Bool :=
  match f.readResult with
  | Except.ok _ => true
  | Except.error _ => false

end ReadTs

/-! ## Concrete fixtures used by the claim theorems -/

/-- Six markdown files whose basenames all contain `a`. -/
def exSixMatches : List VFile :=
  [⟨"a1.md", 6, false, Except.ok "c1"⟩, ⟨"a2.md", 5, false, Except.ok "c2"⟩,
   ⟨"a3.md", 4, false, Except.ok "c3"⟩, ⟨"a4.md", 3, false, Except.ok "c4"⟩,
   ⟨"a5.md", 2, false, Except.ok "c5"⟩, ⟨"a6.md", 1, false, Except.ok "c6"⟩]

/-- Content one byte over the 10 MiB read ceiling. -/
def bigContent : String := String.mk (List.replicate (getMaxReadSize + 1) 'x')

/-- A vault holding only the oversized file. -/
def exBigVault : List VFile := [⟨"big.md", 1, false, Except.ok bigContent⟩]

/-- Two todo files: glob order `a.md` before `b.md`, but `b.md` is the
more recently modified one. -/
def exTwoTodos : List VFile :=
  [⟨"a.md", 1, false, Except.ok "- [ ] t1"⟩, ⟨"b.md", 2, false, Except.ok "- [ ] t2"⟩]

/-- A listed file whose read fails with a native permission error. -/
def exUnreadable : List VFile :=
  [⟨"a.md", 1, false, Except.error "EACCES: permission denied, open /home/user/vault/a.md"⟩]

/-- Vault with a regular file and a symlink to it. -/
def exVaultSymlinkFile : FS :=
  [(["v"], Entry.dir), (["v", "real.md"], Entry.file "orig" 1),
   (["v", "link.md"], Entry.symlink ["v", "real.md"])]

/-- Vault with a symlinked directory pointing outside the root. -/
def exVaultSymlinkDir : FS :=
  [(["v"], Entry.dir), (["out"], Entry.dir), (["v", "linked-dir"], Entry.symlink ["out"])]

/-- A bare vault root. -/
def exVaultBare : FS := [(["v"], Entry.dir)]

/-- Vault with `notes/file.md` already present. -/
def exVaultNotes : FS :=
  [(["v"], Entry.dir), (["v", "notes"], Entry.dir),
   (["v", "notes", "file.md"], Entry.file "old" 5)]

/-- The closed set of response texts the write handler can produce for a
given request path: its own validation messages, the symlink messages, the
generic failure string, and the two success strings.  Native OS error text
is not among them. -/
def sanctionedWriteTexts (filePath : String) : List String :=
  ["Error: Failed to write file.",
   "Error: Cannot write to a symbolic link.",
   "Error: Cannot write through a symlinked directory.",
   "Error: File path contains null bytes.",
   "Error: Cannot write to dot-prefixed files or directories.",
   "Error: File path escapes the vault directory.",
   "Error: File path exceeds the maximum length of 512 characters.",
   "Error: File path exceeds the maximum depth of 10 levels.",
   "Error: " ++ extErrText filePath,
   "Successfully updated existing file: " ++ filePath,
   "Successfully created new file: " ++ filePath]

/-! ## Helper lemmas -/

/-- Looking a path up in an extended association list. -/
theorem FS.lookup_cons (fs : FS) (q : AbsPath) (e : Entry) (p : AbsPath) :
    FS.lookup ((q, e) :: fs) p = if q = p then some e else fs.lookup p := by
  unfold FS.lookup
  by_cases h : q = p
  · subst h
    rw [List.find?_cons_of_pos _ (by simp)]
    simp
  · rw [List.find?_cons_of_neg _ (by simpa using h)]
    simp [h]

/-- `mkdirSync { recursive: true }` creates only directories: the regular
files of the filesystem are exactly preserved, also on a failing run. -/
theorem mkdirRec_files (rest : List String) : ∀ (acc : AbsPath) (fs : FS) (p : AbsPath)
    (c : String) (mt : Nat),
    (((mkdirRec fs acc rest).1.lookup p = some (Entry.file c mt)) ↔
      (fs.lookup p = some (Entry.file c mt))) := by
  induction rest with
  | nil => intro acc fs p c mt; exact Iff.rfl
  | cons seg rest ih =>
    intro acc fs p c mt
    unfold mkdirRec
    cases hl : fs.lookup (acc ++ [seg]) with
    | none =>
      simp only [hl]
      rw [ih]
      unfold FS.insert
      rw [FS.lookup_cons]
      by_cases hqp : acc ++ [seg] = p
      · subst hqp
        simp [hl]
      · simp [hqp]
    | some e =>
      cases e with
      | file c' mt' => simp only [hl]
      | dir => simp only [hl]; exact ih _ _ _ _ _
      | symlink t =>
        simp only [hl]
        cases hl2 : fs.lookup t with
        | none => simp only [hl2]
        | some e2 =>
          cases e2 with
          | dir => simp only [hl2]; exact ih _ _ _ _ _
          | file c' mt' => simp only [hl2]
          | symlink t2 => simp only [hl2]

/-- The only errors `mkdirSync { recursive: true }` raises in the model. -/
theorem mkdirRec_err (rest : List String) : ∀ (acc : AbsPath) (fs : FS) (e : IOErr),
    (mkdirRec fs acc rest).2 = some e → e = IOErr.enotdir ∨ e = IOErr.enoent := by
  induction rest with
  | nil => intro acc fs e h; simp [mkdirRec] at h
  | cons seg rest ih =>
    intro acc fs e h
    unfold mkdirRec at h
    cases hl : fs.lookup (acc ++ [seg]) with
    | none => simp only [hl] at h; exact ih _ _ _ h
    | some e2 =>
      cases e2 with
      | file c' mt' => simp only [hl] at h; simp at h; exact Or.inl h.symm
      | dir => simp only [hl] at h; exact ih _ _ _ h
      | symlink t =>
        simp only [hl] at h
        cases hl2 : fs.lookup t with
        | none => simp only [hl2] at h; simp at h; exact Or.inr h.symm
        | some e3 =>
          cases e3 with
          | dir => simp only [hl2] at h; exact ih _ _ _ h
          | file c' mt' => simp only [hl2] at h; simp at h; exact Or.inr h.symm
          | symlink t2 => simp only [hl2] at h; simp at h; exact Or.inr h.symm

/-- Prefixes of each other are equal. -/
theorem prefixAntisymm {α : Type} {l₁ l₂ : List α} (h1 : l₁ <+: l₂) (h2 : l₂ <+: l₁) :
    l₁ = l₂ := by
  obtain ⟨t, ht⟩ := h1
  obtain ⟨s, hs⟩ := h2
  have hlent := congrArg List.length ht
  have hlens := congrArg List.length hs
  simp only [List.length_append] at hlent hlens
  have : t = [] := List.length_eq_zero.mp (by omega)
  subst this
  simpa using ht

/-- A proper prefix is still a prefix after dropping the last element. -/
theorem prefix_dropLast {α : Type} {q current : List α} (h : q <+: current)
    (hne : q ≠ current) : q <+: current.dropLast := by
  obtain ⟨t, ht⟩ := h
  cases ht' : t with
  | nil => exact absurd (by simpa [ht'] using ht) hne
  | cons x xs =>
    subst ht' ht
    rw [List.dropLast_append_of_ne_nil _ (by simp)]
    exact ⟨(x :: xs).dropLast, rfl⟩

/-- If the chain between the vault root and the write target contains a
currently existing symlinked directory, the ancestor walk reports it. -/
theorem walkGo_finds (fs : FS) (root q : AbsPath) (hqr : root <+: q) (hne : q ≠ root)
    (hex : existsSync fs q = true) (hsym : lstatIsSymlink fs q = true) :
    ∀ (fuel : Nat) (current : AbsPath), current.length < fuel → q <+: current →
      walkGo fs root fuel current = true := by
  intro fuel
  induction fuel with
  | zero => intro current h _; omega
  | succ f ih =>
    intro current hlen hq
    have hqnil : q ≠ [] := by
      intro h0
      subst h0
      exact hne (List.prefix_nil.mp hqr).symm
    have hcnil : current ≠ [] := by
      intro h0
      subst h0
      exact hqnil (List.prefix_nil.mp hq)
    have hrc : root <+: current := hqr.trans hq
    have hcne : current ≠ root := by
      intro h0
      subst h0
      exact hne (prefixAntisymm hq hqr)
    have hcond : (!(current == root) && root.isPrefixOf current) = true := by
      simp [beq_iff_eq, hcne, List.isPrefixOf_iff_prefix, hrc]
    unfold walkGo
    rw [hcond, if_pos rfl]
    by_cases hq' : q = current
    · subst hq'
      rw [hex, hsym]
      simp
    · cases hbad : (existsSync fs current && lstatIsSymlink fs current) with
      | true => simp
      | false =>
        simp only [Bool.false_eq_true, if_false]
        apply ih
        · have hpos : 0 < current.length := List.length_pos.mpr hcnil
          rw [List.length_dropLast]
          omega
        · exact prefix_dropLast hq hq'

/-- Dropping the last element and appending it back is the identity on
nonempty lists. -/
theorem dropLast_append_getLastD {α : Type} (l : List α) (d : α) (h : l ≠ []) :
    l.dropLast ++ [l.getLastD d] = l := by
  induction l with
  | nil => exact absurd rfl h
  | cons a l ih =>
    cases l with
    | nil => rfl
    | cons b t =>
      rw [List.dropLast_cons₂, List.cons_append]
      rw [show (a :: b :: t).getLastD d = (b :: t).getLastD d from rfl]
      rw [ih (by simp)]

/-- Inversion: the only message `assertNoNullBytes` throws. -/
theorem assertNoNullBytes_some {filePath m : String}
    (h : assertNoNullBytes filePath = some m) : m = "File path contains null bytes." := by
  unfold assertNoNullBytes at h
  split at h
  · exact (Option.some.inj h).symm
  · exact absurd h (by simp)

/-- Inversion: the only message `assertNoDotPaths` throws. -/
theorem assertNoDotPaths_some {filePath m : String}
    (h : assertNoDotPaths filePath = some m) :
    m = "Cannot write to dot-prefixed files or directories." := by
  unfold assertNoDotPaths at h
  split at h
  · exact (Option.some.inj h).symm
  · exact absurd h (by simp)

/-- Inversion: the only message `assertInsideVault` throws. -/
theorem assertInsideVault_some {fullPath resolvedVault m : String}
    (h : assertInsideVault fullPath resolvedVault = some m) :
    m = "File path escapes the vault directory." := by
  unfold assertInsideVault at h
  split at h
  · exact absurd h (by simp)
  · exact (Option.some.inj h).symm

/-- Inversion: the messages `assertPathLimits` throws. -/
theorem assertPathLimits_some {filePath m : String}
    (h : assertPathLimits filePath = some m) :
    m = "File path exceeds the maximum length of 512 characters." ∨
      m = "File path exceeds the maximum depth of 10 levels." := by
  unfold assertPathLimits at h
  split at h
  · exact Or.inl (Option.some.inj h).symm
  · split at h
    · exact Or.inr (Option.some.inj h).symm
    · exact absurd h (by simp)

/-- Inversion: the only message `assertNoSymlinkedParents` throws. -/
theorem assertNoSymlinkedParents_some {fs : FS} {fullPath resolvedVault : AbsPath}
    {m : String} (h : assertNoSymlinkedParents fs fullPath resolvedVault = some m) :
    m = "Cannot write through a symlinked directory." := by
  unfold assertNoSymlinkedParents at h
  split at h
  · exact (Option.some.inj h).symm
  · exact absurd h (by simp)

/-- Shape of a rendered path: empty, or starting with the separator. -/
theorem renderData_shape (p : AbsPath) :
    renderData p = [] ∨ ∃ t, renderData p = '/' :: t := by
  cases p with
  | nil => exact Or.inl rfl
  | cons s rest => exact Or.inr ⟨s.data ++ renderData rest, rfl⟩

/-- Splitting a prefix relation at the separator: with slash-free leading
chunks and slash-headed continuations, a prefix must match the leading
chunk exactly. -/
theorem slashChunkSplit : ∀ (a b xs ys : List Char), ('/' ∉ a) → ('/' ∉ b) →
    (∃ xs', xs = '/' :: xs') → (ys = [] ∨ ∃ ys', ys = '/' :: ys') →
    ((a ++ xs <+: b ++ ys) ↔ (a = b ∧ xs <+: ys)) := by
  intro a
  induction a with
  | nil =>
    intro b xs ys _ hb hxs _
    obtain ⟨xs', rfl⟩ := hxs
    cases b with
    | nil => simp
    | cons c b' =>
      simp only [List.nil_append, List.cons_append]
      constructor
      · intro h
        rw [List.cons_prefix_cons] at h
        exact absurd h.1.symm (fun hc => hb (hc ▸ List.mem_cons_self c b'))
      · rintro ⟨h, _⟩
        exact absurd h (by simp)
  | cons ca a' ih =>
    intro b xs ys ha hb hxs hys
    cases b with
    | nil =>
      simp only [List.cons_append, List.nil_append]
      constructor
      · intro h
        cases hys with
        | inl h0 =>
          subst h0
          rw [List.prefix_nil] at h
          simp at h
        | inr h0 =>
          obtain ⟨ys', rfl⟩ := h0
          rw [List.cons_prefix_cons] at h
          exact absurd h.1 (fun hc => ha (hc ▸ List.mem_cons_self ca a'))
      · rintro ⟨h, _⟩
        exact absurd h (by simp)
    | cons cb b' =>
      simp only [List.cons_append]
      rw [List.cons_prefix_cons]
      rw [ih b' xs ys (fun hm => ha (List.mem_cons_of_mem ca hm))
        (fun hm => hb (List.mem_cons_of_mem cb hm)) hxs hys]
      rw [List.cons.injEq, and_assoc]

/-- The separator-terminated rendering of the vault root is a string
prefix of the rendering of a path exactly when the root's segments are a
proper prefix of the path's segments (all segments slash-free). -/
theorem renderDescendIff : ∀ (root full : AbsPath),
    (∀ s ∈ root, '/' ∉ s.data) → (∀ s ∈ full, '/' ∉ s.data) →
    ((renderData root ++ ['/'] <+: renderData full) ↔ (root <+: full ∧ root ≠ full)) := by
  intro root
  induction root with
  | nil =>
    intro full _ _
    cases full with
    | nil => simp [renderData]
    | cons f fs =>
      simp only [renderData, List.nil_append]
      constructor
      · intro _
        exact ⟨⟨f :: fs, rfl⟩, by simp⟩
      · intro _
        exact ⟨f.data ++ renderData fs, rfl⟩
  | cons r rs ih =>
    intro full hroot hfull
    cases full with
    | nil =>
      simp only [renderData]
      constructor
      · intro h
        rw [List.prefix_nil] at h
        simp at h
      · rintro ⟨h, _⟩
        rw [List.prefix_nil] at h
        simp at h
    | cons f fs =>
      simp only [renderData]
      rw [show (('/' :: r.data ++ renderData rs) ++ ['/'] : List Char) =
        '/' :: (r.data ++ (renderData rs ++ ['/'])) from by simp]
      rw [show ('/' :: f.data ++ renderData fs : List Char) =
        '/' :: (f.data ++ renderData fs) from by simp]
      rw [List.cons_prefix_cons]
      have hx : ∃ xs', renderData rs ++ ['/'] = '/' :: xs' := by
        cases renderData_shape rs with
        | inl h0 => rw [h0]; exact ⟨[], rfl⟩
        | inr h0 => obtain ⟨t, h0⟩ := h0; rw [h0]; exact ⟨t ++ ['/'], rfl⟩
      rw [slashChunkSplit r.data f.data _ _ (hroot r (List.mem_cons_self r rs))
        (hfull f (List.mem_cons_self f fs)) hx (renderData_shape fs)]
      rw [ih fs (fun s hs => hroot s (List.mem_cons_of_mem r hs))
        (fun s hs => hfull s (List.mem_cons_of_mem f hs))]
      constructor
      · rintro ⟨-, hdata, hpre, hne⟩
        have hrf : r = f := String.ext hdata
        subst hrf
        refine ⟨List.cons_prefix_cons.mpr ⟨rfl, hpre⟩, ?_⟩
        simp only [ne_eq, List.cons.injEq, not_and]
        intro _
        exact hne
      · rintro ⟨hpre, hne⟩
        rw [List.cons_prefix_cons] at hpre
        obtain ⟨hrf, hpre'⟩ := hpre
        subst hrf
        refine ⟨rfl, rfl, hpre', ?_⟩
        intro h0
        exact hne (by rw [h0])

/-- Inversion: the only message `assertAllowedExtension` throws. -/
theorem assertAllowedExtension_some {filePath m : String}
    (h : assertAllowedExtension filePath = some m) : m = extErrText filePath := by
  simp only [assertAllowedExtension] at h
  split at h
  · exact (Option.some.inj h).symm
  · exact absurd h (by simp)

/-- The `forEach` loop of `findOpenTodos` equals the flat map of the
per-file records when every read succeeds: todo records appear in file
order, and within a file in line order. -/
theorem findOpenTodosGo_spec (l : List VFile) : ∀ (acc : List String),
    (∀ f ∈ l, ReadTs.readOk f = true) →
    ReadTs.findOpenTodosGo l acc =
      Except.ok (acc ++ l.flatMap ReadTs.todoRecordsOfFile) := by
  induction l with
  | nil => intro acc _; simp [ReadTs.findOpenTodosGo]
  | cons f rest ih =>
    intro acc hall
    have hf := hall f (List.mem_cons_self f rest)
    unfold ReadTs.findOpenTodosGo
    cases hr : f.readResult with
    | error e =>
      unfold ReadTs.readOk at hf
      rw [hr] at hf
      simp at hf
    | ok content =>
      simp only [hr]
      rw [ih _ (fun g hg => hall g (List.mem_cons_of_mem f hg))]
      have hrec : ReadTs.todoRecordsOfFile f = ReadTs.todoRecords f.rel content := by
        unfold ReadTs.todoRecordsOfFile
        rw [hr]
      simp [hrec, List.append_assoc]

/-! ## Claim theorems -/

/-- C3: for every candidate write path in which any separator-delimited
segment starts with a dot (including `..`), `updateFileContent` rejects
the request with a validation error (the null-byte check can fire first)
and performs no filesystem mutation, regardless of nesting depth. -/
theorem C3_dot_segment_rejected (fs : FS) (rootSegs : AbsPath)
    (filePath content : String) (fault : Option IOErr)
    (hdot : (splitChars '/' filePath).any (fun seg => strStartsWith seg ".") = true) :
    (updateFileContent fs rootSegs filePath content fault).fs = fs ∧
      ((updateFileContent fs rootSegs filePath content fault).text =
          "Error: File path contains null bytes." ∨
        (updateFileContent fs rootSegs filePath content fault).text =
          "Error: Cannot write to dot-prefixed files or directories.") := by
  have h2 : assertNoDotPaths filePath =
      some "Cannot write to dot-prefixed files or directories." := by
    simp [assertNoDotPaths, hdot]
  cases h1 : assertNoNullBytes filePath with
  | some m =>
    have hm := assertNoNullBytes_some h1
    subst hm
    simp only [updateFileContent, h1]
    simp
  | none =>
    simp only [updateFileContent, h1, h2]
    simp

/-- C3 witness: a nested dot path is rejected and the vault is unchanged. -/
theorem C3_dot_segment_rejected_witness :
    ((splitChars '/' ".git/hooks/pre-commit.md").any
        (fun seg => strStartsWith seg ".") = true) ∧
      ((updateFileContent exVaultBare ["v"] ".git/hooks/pre-commit.md" "x" none).fs =
          exVaultBare ∧
        ((updateFileContent exVaultBare ["v"] ".git/hooks/pre-commit.md" "x" none).text =
            "Error: File path contains null bytes." ∨
          (updateFileContent exVaultBare ["v"] ".git/hooks/pre-commit.md" "x" none).text =
            "Error: Cannot write to dot-prefixed files or directories.")) :=
  ⟨by decide,
    C3_dot_segment_rejected exVaultBare ["v"] ".git/hooks/pre-commit.md" "x" none (by decide)⟩

/-- C4: the containment check passes exactly when the resolved absolute
path begins with the sandbox root followed immediately by the path
separator — equivalently, when the root's segments are a strict prefix of
the path's segments — and a resolved path equal to the root itself is
rejected. -/
theorem C4_containment_strict_descendant (rootSegs fullSegs : AbsPath)
    (hroot : ∀ s ∈ rootSegs, '/' ∉ s.data) (hfull : ∀ s ∈ fullSegs, '/' ∉ s.data) :
    (assertInsideVault (renderPath fullSegs) (renderPath rootSegs) = none ↔
      (rootSegs <+: fullSegs ∧ rootSegs ≠ fullSegs)) ∧
      assertInsideVault (renderPath rootSegs) (renderPath rootSegs) ≠ none := by
  have key : ∀ (a b : AbsPath), (∀ s ∈ b, '/' ∉ s.data) → (∀ s ∈ a, '/' ∉ s.data) →
      (assertInsideVault (renderPath a) (renderPath b) = none ↔ (b <+: a ∧ b ≠ a)) := by
    intro a b hb ha
    have hiff : strStartsWith (renderPath a) (renderPath b ++ pathSep) = true ↔
        (b <+: a ∧ b ≠ a) := by
      rw [show strStartsWith (renderPath a) (renderPath b ++ pathSep)
        = (renderData b ++ ['/']).isPrefixOf (renderData a) from rfl]
      rw [ List.isPrefixOf_iff_prefix]
      exact renderDescendIff b a hb ha
    unfold assertInsideVault
    by_cases h : strStartsWith (renderPath a) (renderPath b ++ pathSep) = true
    · rw [if_pos h]
      exact iff_of_true rfl (hiff.mp h)
    · rw [if_neg h]
      exact iff_of_false (by simp) (fun hc => h (hiff.mpr hc))
  refine ⟨key fullSegs rootSegs hroot hfull, ?_⟩
  intro hc
  exact ((key rootSegs rootSegs hroot hroot).mp hc).2 rfl

/-- C4 witness: concrete instantiation of the containment
characterization inside a one-segment vault. -/
theorem C4_containment_strict_descendant_witness :
    ((assertInsideVault (renderPath ["v", "a.md"]) (renderPath ["v"]) = none ↔
        ((["v"] : AbsPath) <+: ["v", "a.md"] ∧ (["v"] : AbsPath) ≠ ["v", "a.md"])) ∧
      assertInsideVault (renderPath ["v"]) (renderPath ["v"]) ≠ none) :=
  C4_containment_strict_descendant ["v"] ["v", "a.md"] (by decide) (by decide)

/-- C5 (code versus its own security documentation): a partial query
matching six files returns all six contents — there is no cap at five and
no suppression indicator in this version of `readFilesByName`. -/
theorem C5_partial_match_uncapped :
    ReadTs.readFilesByName exSixMatches ["a"] =
      Except.ok ["# File: a1.md\n\nc1", "# File: a2.md\n\nc2", "# File: a3.md\n\nc3",
        "# File: a4.md\n\nc4", "# File: a5.md\n\nc5", "# File: a6.md\n\nc6"] := rfl

/-- C6 (code versus its own security documentation): a file one byte over
the 10 MiB ceiling is read in full and returned by `readFilesByName`; no
size check precedes the read and no `TooLargeError` is produced. -/
theorem C6_oversized_read_not_blocked :
    ReadTs.readFilesByName exBigVault ["big.md"] =
        Except.ok ["# File: " ++ "big.md" ++ "\n\n" ++ bigContent] ∧
      bigContent.length = getMaxReadSize + 1 := by
  refine ⟨rfl, ?_⟩
  show (List.replicate (getMaxReadSize + 1) 'x').length = getMaxReadSize + 1
  simp

/-- C7 counterexample: with `a.md` enumerated before the more recently
modified `b.md`, the todo scan emits the record of `a.md` first, while
the mtime-sorted enumeration ranks `b.md` first — the claimed
most-recently-modified-first ordering is refuted at this input. -/
theorem C7_todo_order_counterexample :
    ReadTs.findOpenTodos exTwoTodos =
        Except.ok ["- **a.md**: - [ ] t1", "- **b.md**: - [ ] t2"] ∧
      ReadTs.getAllFilenames exTwoTodos = ["b.md", "a.md"] ∧
      ReadTs.findOpenTodos exTwoTodos ≠
        Except.ok ["- **b.md**: - [ ] t2", "- **a.md**: - [ ] t1"] := by
  refine ⟨rfl, rfl, ?_⟩
  intro h
  have h0 : ReadTs.findOpenTodos exTwoTodos =
      Except.ok ["- **a.md**: - [ ] t1", "- **b.md**: - [ ] t2"] := rfl
  rw [h0] at h
  exact absurd (Except.ok.inj h) (by decide)

/-- C7 amended: the todo scan emits its records in the raw glob
enumeration order of the vault (it performs no mtime sort), and within a
single file in line order: when every read succeeds it equals the flat
map of per-file records over the filtered enumeration. -/
theorem C7_todo_scan_in_enumeration_order (files : List VFile)
    (hreads : ∀ f ∈ (files.filter (fun f => strEndsWith f.rel ".md")).filter
        (fun f => !f.link), ReadTs.readOk f = true) :
    ReadTs.findOpenTodos files =
      Except.ok (((files.filter (fun f => strEndsWith f.rel ".md")).filter
        (fun f => !f.link)).flatMap ReadTs.todoRecordsOfFile) := by
  unfold ReadTs.findOpenTodos
  simpa using findOpenTodosGo_spec _ [] hreads

/-- C7 amended witness. -/
theorem C7_todo_scan_in_enumeration_order_witness :
    (∀ f ∈ (exTwoTodos.filter (fun f => strEndsWith f.rel ".md")).filter
        (fun f => !f.link), ReadTs.readOk f = true) ∧
      ReadTs.findOpenTodos exTwoTodos =
        Except.ok (((exTwoTodos.filter (fun f => strEndsWith f.rel ".md")).filter
          (fun f => !f.link)).flatMap ReadTs.todoRecordsOfFile) :=
  ⟨by decide, C7_todo_scan_in_enumeration_order exTwoTodos (by decide)⟩

/-- C8 counterexample: a native read error (permission denial) in
`readFilesByName` propagates uncaught out of the `readMultipleFiles`
handler with its native message — the read side has no catch boundary. -/
theorem C8_read_error_escapes :
    ReadTs.readFiles exUnreadable ["a.md"] =
      Except.error "EACCES: permission denied, open /home/user/vault/a.md" := rfl

/-- C1: when a write request passes every validation and reaches the
terminal open with the final path component being an existing symbolic
link, the O_NOFOLLOW open fails atomically: the filesystem — and hence
the link's target — is not mutated, and the failure is reported with the
symlink-specific message, not a generic I/O failure. -/
theorem C1_symlink_target_never_written (fs : FS) (rootSegs : AbsPath)
    (filePath content : String) (t dirPhys : AbsPath)
    (h1 : assertNoNullBytes filePath = none)
    (h2 : assertNoDotPaths filePath = none)
    (h3 : assertAllowedExtension filePath = none)
    (h4 : assertPathLimits filePath = none)
    (h5 : assertInsideVault (renderPath (pathResolve rootSegs filePath))
      (renderPath rootSegs) = none)
    (hdir : existsSync fs (pathResolve rootSegs filePath).dropLast = true)
    (hguard : walkHitsSymlink fs rootSegs (pathResolve rootSegs filePath).dropLast = false)
    (hres : resolveD fs (pathResolve rootSegs filePath).dropLast = some dirPhys)
    (hlink : fs.lookup (dirPhys ++ [(pathResolve rootSegs filePath).getLastD ""]) =
      some (Entry.symlink t)) :
    updateFileContent fs rootSegs filePath content none =
      ⟨"Error: Cannot write to a symbolic link.", fs⟩ := by
  have hg : assertNoSymlinkedParents fs (pathResolve rootSegs filePath) rootSegs = none := by
    unfold assertNoSymlinkedParents
    rw [hguard]
    simp
  have hopen : openWriteNoFollow fs (pathResolve rootSegs filePath) content none =
      (fs, some IOErr.eloop) := by
    unfold openWriteNoFollow
    simp only [hres, hlink]
  simp only [updateFileContent, h1, h2, h3, h4, h5, hdir, if_true, hg, hopen]
  rfl

/-- C1 witness: writing to the symlink `link.md` inside the vault leaves
the filesystem untouched and reports the symlink-specific message. -/
theorem C1_symlink_target_never_written_witness :
    FS.lookup exVaultSymlinkFile (["v"] ++ [(pathResolve ["v"] "link.md").getLastD ""]) =
        some (Entry.symlink ["v", "real.md"]) ∧
      updateFileContent exVaultSymlinkFile ["v"] "link.md" "x" none =
        ⟨"Error: Cannot write to a symbolic link.", exVaultSymlinkFile⟩ :=
  ⟨by decide,
    C1_symlink_target_never_written exVaultSymlinkFile ["v"] "link.md" "x"
      ["v", "real.md"] ["v"] (by decide) (by decide) (by decide) (by decide) (by decide)
      (by decide) (by decide) (by decide) (by decide)⟩

/-- C2: after the mkdir step, if any currently existing directory in the
chain strictly between the vault root and the parent of the resolved
path is a symbolic link, the guard fails with the symlinked-directory
error and the write creates or changes no regular file anywhere (a
fortiori none outside the root). -/
theorem C2_symlinked_parent_blocks_write (fs fs₁ : FS) (rootSegs : AbsPath)
    (filePath content : String) (fault : Option IOErr) (q : AbsPath)
    (h1 : assertNoNullBytes filePath = none)
    (h2 : assertNoDotPaths filePath = none)
    (h3 : assertAllowedExtension filePath = none)
    (h4 : assertPathLimits filePath = none)
    (h5 : assertInsideVault (renderPath (pathResolve rootSegs filePath))
      (renderPath rootSegs) = none)
    (hmk : (if existsSync fs (pathResolve rootSegs filePath).dropLast then (fs, none)
        else mkdirRec fs [] (pathResolve rootSegs filePath).dropLast) =
        (fs₁, (none : Option IOErr)))
    (hq₁ : q <+: (pathResolve rootSegs filePath).dropLast)
    (hq₂ : rootSegs <+: q) (hq₃ : q ≠ rootSegs)
    (hq₄ : existsSync fs₁ q = true) (hq₅ : lstatIsSymlink fs₁ q = true) :
    updateFileContent fs rootSegs filePath content fault =
        ⟨"Error: Cannot write through a symlinked directory.", fs₁⟩ ∧
      (∀ (p : AbsPath) (c : String) (mt : Nat),
        fs₁.lookup p = some (Entry.file c mt) ↔ fs.lookup p = some (Entry.file c mt)) := by
  have hw : walkHitsSymlink fs₁ rootSegs (pathResolve rootSegs filePath).dropLast = true := by
    unfold walkHitsSymlink
    exact walkGo_finds fs₁ rootSegs q hq₂ hq₃ hq₄ hq₅ _ _ (by omega) hq₁
  have hg : assertNoSymlinkedParents fs₁ (pathResolve rootSegs filePath) rootSegs =
      some "Cannot write through a symlinked directory." := by
    unfold assertNoSymlinkedParents
    rw [hw]
    simp
  constructor
  · simp only [updateFileContent, h1, h2, h3, h4, h5, hmk, hg]
    rfl
  · by_cases hex : existsSync fs (pathResolve rootSegs filePath).dropLast = true
    · rw [if_pos hex] at hmk
      have hfs : fs = fs₁ := congrArg Prod.fst hmk
      subst hfs
      intro p c mt
      exact Iff.rfl
    · rw [if_neg hex] at hmk
      intro p c mt
      have hper := mkdirRec_files (pathResolve rootSegs filePath).dropLast [] fs p c mt
      rw [hmk] at hper
      exact hper

/-- C2 witness: writing `linked-dir/payload.md` through the symlinked
directory `linked-dir` fails with the symlinked-directory message and
changes no regular file. -/
theorem C2_symlinked_parent_blocks_write_witness :
    lstatIsSymlink exVaultSymlinkDir ["v", "linked-dir"] = true ∧
      updateFileContent exVaultSymlinkDir ["v"] "linked-dir/payload.md" "x" none =
          ⟨"Error: Cannot write through a symlinked directory.", exVaultSymlinkDir⟩ ∧
        (∀ (p : AbsPath) (c : String) (mt : Nat),
          FS.lookup exVaultSymlinkDir p = some (Entry.file c mt) ↔
            FS.lookup exVaultSymlinkDir p = some (Entry.file c mt)) :=
  ⟨by decide,
    C2_symlinked_parent_blocks_write exVaultSymlinkDir exVaultSymlinkDir ["v"]
      "linked-dir/payload.md" "x" none ["v", "linked-dir"] (by decide) (by decide)
      (by decide) (by decide) (by decide) (by decide) (by decide) (by decide) (by decide)
      (by decide) (by decide)⟩

/-- C9: when every path validation passes, the parent directory is
missing, and the terminal open fails with an injected unexpected OS
error, the directories created by the recursive mkdir persist in the
final state while the handler returns an error result — the write is not
atomic with respect to directory creation. -/
theorem C9_mkdir_persists_on_failed_open (fs fs₁ : FS) (rootSegs : AbsPath)
    (filePath content : String) (e : IOErr)
    (h1 : assertNoNullBytes filePath = none)
    (h2 : assertNoDotPaths filePath = none)
    (h3 : assertAllowedExtension filePath = none)
    (h4 : assertPathLimits filePath = none)
    (h5 : assertInsideVault (renderPath (pathResolve rootSegs filePath))
      (renderPath rootSegs) = none)
    (hex : existsSync fs (pathResolve rootSegs filePath).dropLast = false)
    (hmk : mkdirRec fs [] (pathResolve rootSegs filePath).dropLast = (fs₁, none))
    (hguard : walkHitsSymlink fs₁ rootSegs
      (pathResolve rootSegs filePath).dropLast = false) :
    updateFileContent fs rootSegs filePath content (some e) = ⟨catchToText e, fs₁⟩ := by
  have hg : assertNoSymlinkedParents fs₁ (pathResolve rootSegs filePath) rootSegs = none := by
    unfold assertNoSymlinkedParents
    rw [hguard]
    simp
  have hopen : openWriteNoFollow fs₁ (pathResolve rootSegs filePath) content (some e) =
      (fs₁, some e) := rfl
  simp only [updateFileContent, h1, h2, h3, h4, h5]
  simp [hex, hmk, hg, hopen]

/-- C9 witness: a disk-full failure at the open leaves the two freshly
created parent directories in the vault and returns the generic error. -/
theorem C9_mkdir_persists_on_failed_open_witness :
    mkdirRec exVaultBare [] (pathResolve ["v"] "a/b/c.md").dropLast =
        ((["v", "a", "b"], Entry.dir) :: (["v", "a"], Entry.dir) :: exVaultBare, none) ∧
      updateFileContent exVaultBare ["v"] "a/b/c.md" "x"
          (some (IOErr.fault "ENOSPC: no space left on device")) =
        ⟨"Error: Failed to write file.",
          (["v", "a", "b"], Entry.dir) :: (["v", "a"], Entry.dir) :: exVaultBare⟩ ∧
      FS.lookup exVaultBare ["v", "a"] = none :=
  ⟨by decide,
    (C9_mkdir_persists_on_failed_open exVaultBare
        ((["v", "a", "b"], Entry.dir) :: (["v", "a"], Entry.dir) :: exVaultBare) ["v"]
        "a/b/c.md" "x" (IOErr.fault "ENOSPC: no space left on device") (by decide)
        (by decide) (by decide) (by decide) (by decide) (by decide) (by decide)
        (by decide)).trans (by decide),
    by decide⟩

/-- C10: the created-versus-updated wording is decided by exact string
membership of the caller's path in the enumerated relative-path list:
when the resolved target is an existing regular file but the caller's
path string is not character-for-character in the enumeration, the file
is overwritten yet the response reports a newly created file. -/
theorem C10_created_wording_by_exact_membership (fs : FS) (rootSegs : AbsPath)
    (filePath content oldContent : String) (mt : Nat)
    (h1 : assertNoNullBytes filePath = none)
    (h2 : assertNoDotPaths filePath = none)
    (h3 : assertAllowedExtension filePath = none)
    (h4 : assertPathLimits filePath = none)
    (h5 : assertInsideVault (renderPath (pathResolve rootSegs filePath))
      (renderPath rootSegs) = none)
    (hne : pathResolve rootSegs filePath ≠ [])
    (hold : fs.lookup (pathResolve rootSegs filePath) = some (Entry.file oldContent mt))
    (hnotin : (FS.getAllFilenames fs rootSegs).contains filePath = false)
    (hdir : existsSync fs (pathResolve rootSegs filePath).dropLast = true)
    (hguard : walkHitsSymlink fs rootSegs (pathResolve rootSegs filePath).dropLast = false)
    (hres : resolveD fs (pathResolve rootSegs filePath).dropLast =
      some ((pathResolve rootSegs filePath).dropLast)) :
    updateFileContent fs rootSegs filePath content none =
      ⟨"Successfully created new file: " ++ filePath,
        FS.insert fs (pathResolve rootSegs filePath) (Entry.file content 0)⟩ := by
  have htgt : (pathResolve rootSegs filePath).dropLast ++
      [(pathResolve rootSegs filePath).getLastD ""] = pathResolve rootSegs filePath :=
    dropLast_append_getLastD _ _ hne
  have hg : assertNoSymlinkedParents fs (pathResolve rootSegs filePath) rootSegs = none := by
    unfold assertNoSymlinkedParents
    rw [hguard]
    simp
  have hopen : openWriteNoFollow fs (pathResolve rootSegs filePath) content none =
      (FS.insert fs (pathResolve rootSegs filePath) (Entry.file content 0), none) := by
    unfold openWriteNoFollow
    simp only [hres, htgt, hold]
  simp only [updateFileContent, h1, h2, h3, h4, h5, hdir, if_true, hg, hopen, hnotin]
  simp

/-- C10 witness: `notes//file.md` resolves to the existing
`notes/file.md`, is not in the enumerated list, and the overwrite is
reported as a newly created file. -/
theorem C10_created_wording_by_exact_membership_witness :
    FS.lookup exVaultNotes (pathResolve ["v"] "notes//file.md") =
        some (Entry.file "old" 5) ∧
      (FS.getAllFilenames exVaultNotes ["v"]).contains "notes//file.md" = false ∧
      updateFileContent exVaultNotes ["v"] "notes//file.md" "new" none =
        ⟨"Successfully created new file: " ++ "notes//file.md",
          FS.insert exVaultNotes (pathResolve ["v"] "notes//file.md")
            (Entry.file "new" 0)⟩ :=
  ⟨by decide, by decide,
    C10_created_wording_by_exact_membership exVaultNotes ["v"] "notes//file.md" "new"
      "old" 5 (by decide) (by decide) (by decide) (by decide) (by decide) (by decide)
      (by decide) (by decide) (by decide) (by decide) (by decide)⟩

/-- C8 amended: the write handler's boundary is total — for an injected
unexpected OS failure whose native message is not one of the handler's
own validation messages, the response text always comes from the
handler's closed sanctioned set (the native message is flattened to the
generic failure string, never surfaced). -/
theorem C8_write_boundary_flattens_unexpected (fs : FS) (rootSegs : AbsPath)
    (filePath content m : String) (hm : knownWriteErrorMessage m = false) :
    (updateFileContent fs rootSegs filePath content (some (IOErr.fault m))).text ∈
      sanctionedWriteTexts filePath := by
  have hfaultText : catchToText (IOErr.fault m) = "Error: Failed to write file." := by
    unfold catchToText
    simp [IOErr.message, hm]
  cases h1 : assertNoNullBytes filePath with
  | some m1 =>
    rw [assertNoNullBytes_some h1] at h1
    simp only [updateFileContent, h1]
    simp [sanctionedWriteTexts]
  | none =>
  cases h2 : assertNoDotPaths filePath with
  | some m2 =>
    rw [assertNoDotPaths_some h2] at h2
    simp only [updateFileContent, h1, h2]
    simp [sanctionedWriteTexts]
  | none =>
  cases h3 : assertAllowedExtension filePath with
  | some m3 =>
    rw [assertAllowedExtension_some h3] at h3
    simp only [updateFileContent, h1, h2, h3]
    simp [sanctionedWriteTexts]
  | none =>
  cases h4 : assertPathLimits filePath with
  | some m4 =>
    rcases assertPathLimits_some h4 with hm4 | hm4 <;> rw [hm4] at h4 <;>
      simp only [updateFileContent, h1, h2, h3, h4] <;> simp [sanctionedWriteTexts]
  | none =>
  cases h5 : assertInsideVault (renderPath (pathResolve rootSegs filePath))
      (renderPath rootSegs) with
  | some m5 =>
    rw [assertInsideVault_some h5] at h5
    simp only [updateFileContent, h1, h2, h3, h4, h5]
    simp [sanctionedWriteTexts]
  | none =>
  cases hmk : (if existsSync fs (pathResolve rootSegs filePath).dropLast then
      (fs, (none : Option IOErr))
      else mkdirRec fs [] (pathResolve rootSegs filePath).dropLast) with
  | mk fs₁ me =>
    cases me with
    | some e =>
      have he : e = IOErr.enotdir ∨ e = IOErr.enoent := by
        by_cases hex : existsSync fs (pathResolve rootSegs filePath).dropLast = true
        · rw [if_pos hex] at hmk
          exact absurd (congrArg Prod.snd hmk) (by simp)
        · rw [if_neg hex] at hmk
          exact mkdirRec_err _ _ _ e (congrArg Prod.snd hmk)
      have hct : catchToText e = "Error: Failed to write file." := by
        rcases he with rfl | rfl <;> rfl
      simp only [updateFileContent, h1, h2, h3, h4, h5, hmk, hct]
      simp [sanctionedWriteTexts]
    | none =>
      cases h6 : assertNoSymlinkedParents fs₁ (pathResolve rootSegs filePath) rootSegs with
      | some m6 =>
        rw [assertNoSymlinkedParents_some h6] at h6
        simp only [updateFileContent, h1, h2, h3, h4, h5, hmk, h6]
        simp [sanctionedWriteTexts]
      | none =>
        have hopen : openWriteNoFollow fs₁ (pathResolve rootSegs filePath) content
            (some (IOErr.fault m)) = (fs₁, some (IOErr.fault m)) := rfl
        simp only [updateFileContent, h1, h2, h3, h4, h5, hmk, h6, hopen, hfaultText]
        simp [sanctionedWriteTexts]

/-- C8 amended witness: an injected permission error on a valid write
request yields a sanctioned response text (the generic failure string). -/
theorem C8_write_boundary_flattens_unexpected_witness :
    knownWriteErrorMessage "EACCES: permission denied" = false ∧
      (updateFileContent exVaultBare ["v"] "note.md" "x"
          (some (IOErr.fault "EACCES: permission denied"))).text ∈
        sanctionedWriteTexts "note.md" :=
  ⟨by decide,
    C8_write_boundary_flattens_unexpected exVaultBare ["v"] "note.md" "x"
      "EACCES: permission denied" (by decide)⟩
